import Mathlib

/-!
Verification of the EASteam Transaction Reconciliation & ROI Analysis Engine
(`src/service/MarketAnalyzer.js`), shallowly embedded in Lean 4.

Modelling conventions:
* JavaScript values that may be `undefined`/`null` are `Option` types; the
  JS idioms `x || 0`, `x || null`, `x ?? null`, truthiness tests and
  `String(x)` coercion are modelled by the explicit helpers below.
* JS numbers are modelled as `Int` (monetary amounts are integer cents in
  the Steam API) and as `ℚ` where division occurs; the special value `NaN`,
  reachable in `calculateTransactionStatistics` by adding `undefined` to a
  number, is modelled by `Option Int` / `Option ℚ` with `none` = NaN.
* `toFixed(2)` (round to two decimals, ties away from the smaller value,
  i.e. `n` maximal among nearest) is modelled exactly on rationals.
* JS objects (`history.purchases`, the asset catalog) are association
  lists in insertion order — `Object.entries` enumerates own string keys in
  insertion order and keys are unique; `new Map(pairs)` with duplicate keys
  keeps the last pair, hence `lastLookup`.
* Thrown JS errors are `Except.error`; the engine functions are otherwise
  total on well-typed input.
* `print` logging, the unused `purchasesByNewId` index, the dead
  `itemTransactions` trace (computed but never returned) and ISO date
  rendering are side effects / dead display code and are not modelled;
  the `itemStats` per-item fold of `calculateTransactionStatistics` is
  modelled even though the function returns only `overall`, because claims
  speak about the per-item totals it computes.
-/

namespace EASteam

/-! ### JavaScript value helpers -/

/-- `x || 0` for a possibly-missing number (`0` is falsy, so a present `0`
also yields `0`). -/
def jsOrInt0 : Option Int → Int
  | some v => v
  | none => 0

/-- `a || b` for strings: the empty string is falsy. -/
def jsStrOr (a : Option String) (b : String) : String :=
  match a with
  | some s => if s = "" then b else s
  | none => b

/-- Truthiness of a possibly-missing string. -/
def jsTruthyStr : Option String → Bool
  | some s => s != ""
  | none => false

/-- Truthiness of a possibly-missing numeric id. -/
def jsTruthyNat : Option Nat → Bool
  | some n => n != 0
  | none => false

/-- `x || null` for a number: `0` collapses to `null`. -/
def jsOrNullInt : Option Int → Option Int
  | some v => if v = 0 then none else some v
  | none => none

/-- `x || null` for a string: `""` collapses to `null`. -/
def jsOrNullStr : Option String → Option String
  | some s => if s = "" then none else some s
  | none => none

/-- `String(x)` for a string-or-null id: `String(null) = "null"`. -/
def jsStringOfId : Option String → String
  | some s => s
  | none => "null"

/-- NaN-propagating addition: `a + b` where either side may be NaN, and
`number + undefined` is NaN. -/
def jsAdd : Option Int → Option Int → Option Int
  | some x, some y => some (x + y)
  | _, _ => none

/-- `Number(q.toFixed(2))`: round to two decimals picking the larger of two
equally near candidates (ECMA-262 `toFixed`). -/
def jsToFixed2 (q : ℚ) : ℚ :=
  (⌊q * 100 + 1 / 2⌋ : ℚ) / 100

/-- `q.toFixed(2) + "%"` for the nonnegative percentages produced by the
holdings matcher, rendered as a decimal string. -/
def jsToFixed2Pct (q : ℚ) : String :=
  let n := (⌊q * 100 + 1 / 2⌋).toNat
  Nat.repr (n / 100) ++ "." ++ (if n % 100 < 10 then "0" else "") ++ Nat.repr (n % 100) ++ "%"

/-- First-match association-list lookup (JS object property access; object
keys are unique). -/
def lookupObj {α : Type} (l : List (Nat × α)) (k : Nat) : Option α :=
  (l.find? (fun e => e.1 == k)).map (fun e => e.2)

/-- First-match association-list lookup with string keys. -/
def lookupObjS {α : Type} (l : List (String × α)) (k : String) : Option α :=
  (l.find? (fun e => e.1 == k)).map (fun e => e.2)

/-- `new Map(pairs).get k`: with duplicate keys the last pair wins. -/
def lastLookup {α : Type} (l : List (String × α)) (k : String) : Option α :=
  (l.reverse.find? (fun e => e.1 == k)).map (fun e => e.2)

/-! ### Data model (§3 of the spec, mirrored from `MarketAnalyzer.js`) -/

/-- Catalog entry: `history.assets[appid][contextid][assetid]`. -/
structure ItemInfo where
  market_hash_name : Option String := none
  unowned_id : Option String := none
deriving DecidableEq, Repr

abbrev CtxAssets := List (String × ItemInfo)

abbrev Catalog := List (Nat × List (Nat × CtxAssets))

/-- `transaction.asset` of a raw ledger entry. -/
structure Asset where
  appid : Option Nat := none
  contextid : Option Nat := none
  id : Option String := none
  new_id : Option String := none
deriving DecidableEq, Repr

/-- One raw entry of `history.purchases` (a RawLedgerEntry). -/
structure RawTransaction where
  steamid_purchaser : Option String := none
  asset : Option Asset := none
  market_name : Option String := none
  paid_amount : Option Int := none
  paid_fee : Option Int := none
  currencyid : Option Nat := none
  time_sold : Option Int := none
  received_amount : Option Int := none
  received_currencyid : Option Nat := none
deriving DecidableEq, Repr

/-- The ledger snapshot handed to the parser. `purchases = none` models a
ledger object without a purchases collection (on which `Object.entries`
throws); `assets = none` models an absent catalog. -/
structure Ledger where
  purchases : Option (List (String × RawTransaction)) := none
  assets : Option Catalog := none
deriving Repr

/-- A ParsedTransaction: the object built for each raw entry in
`parseMarketHistory`'s first loop. -/
structure Parsed where
  id : String
  new_id : Option String
  appid : Option Nat
  contextid : Option Nat
  assetid : Option String
  type : String
  market_name : String
  paid_amount : Int
  paid_fee : Int
  paid_total : Int
  currencyid : Option Nat
  time_sold : Option Int
  steamid_purchaser : Option String
  raw : RawTransaction
deriving DecidableEq, Repr

/-- A LinkedTransactionRecord: one element of the parser's `transactions`
output list. Absent JS fields (`linked_sale_id` on received records,
`linked_purchase_id` on purchase records) are `none`, as is an explicit
`null`. -/
structure LinkedRecord where
  transaction_id : String
  transaction_status : String
  role : String
  purchase_id : String
  purchase : Parsed
  linked_sale_id : Option String := none
  linked_purchase_id : Option String := none
  time_sold : Option Int := none
deriving DecidableEq, Repr

/-- The parser's return object. -/
structure ParseResult where
  transactions : List LinkedRecord
  purchases_count : Nat
  completed_purchases_count : Nat
  uncompleted_purchases_count : Nat
  sales_count : Nat
  received_sales_count : Nat
  totalTransactions : Nat
deriving DecidableEq, Repr

/-! ### Ledger Parser (`parseMarketHistory`, lines 14–159) -/

/-- Display-name resolution: direct catalog hit, then the `unowned_id`
fallback scan over the same (appid, contextid) bucket. -/
def resolveItemInfo (assets : Option Catalog) (appid contextid : Option Nat)
    (assetid : Option String) : Option ItemInfo :=
  if jsTruthyNat appid && jsTruthyNat contextid && jsTruthyStr assetid then
    let aid := jsStringOfId assetid
    let ctx : Option CtxAssets :=
      (assets.bind (fun c => lookupObj c (appid.getD 0))).bind
        (fun m => lookupObj m (contextid.getD 0))
    match ctx.bind (fun m => lookupObjS m aid) with
    | some info => some info
    | none => ctx.bind (fun m => (m.find? (fun e => e.2.unowned_id == some aid)).map (fun e => e.2))
  else none

/-- The per-entry body of the parser's first loop: build a ParsedTransaction
from one `[key, transaction]` pair. -/
def parseOne (mySteamId : String) (assets : Option Catalog)
    (kv : String × RawTransaction) : Parsed :=
  let t := kv.2
  let isMyPurchase := t.steamid_purchaser == some mySteamId
  let appid := t.asset.bind Asset.appid
  let contextid := t.asset.bind Asset.contextid
  let assetid := t.asset.bind Asset.id
  let new_id := t.asset.bind Asset.new_id
  let itemInfo := resolveItemInfo assets appid contextid assetid
  { id := kv.1
    new_id := new_id
    appid := appid
    contextid := contextid
    assetid := assetid
    type := if isMyPurchase then "purchase" else "sale"
    market_name := jsStrOr (itemInfo.bind ItemInfo.market_hash_name) (jsStrOr t.market_name ("Unknown Item"))
    paid_amount := jsOrInt0 t.paid_amount
    paid_fee := jsOrInt0 t.paid_fee
    paid_total := jsOrInt0 t.paid_amount + jsOrInt0 t.paid_fee
    currencyid := t.currencyid
    time_sold := jsOrNullInt t.time_sold
    steamid_purchaser := jsOrNullStr t.steamid_purchaser
    raw := t }

/-- All parsed entries, in ledger (insertion) order. -/
def parsedEntries (mySteamId : String) (assets : Option Catalog)
    (entries : List (String × RawTransaction)) : List Parsed :=
  entries.map (parseOne mySteamId assets)

/-- `accountPurchases`: parsed entries pushed to the purchase list, in input
order. -/
def purchasesOf (mySteamId : String) (assets : Option Catalog)
    (entries : List (String × RawTransaction)) : List Parsed :=
  (parsedEntries mySteamId assets entries).filter (fun p => p.type == "purchase")

/-- `accountSales`: parsed entries pushed to the sale list, in input order. -/
def salesOf (mySteamId : String) (assets : Option Catalog)
    (entries : List (String × RawTransaction)) : List Parsed :=
  (parsedEntries mySteamId assets entries).filter (fun p => p.type == "sale")

/-- `salesByAssetId.get k`: the JS `Map` is built from the sales with a
truthy `assetid`, keyed by `String(assetid)`; with duplicate keys the last
entry wins, and the map is never mutated afterwards. -/
def getSaleByAssetId (sales : List Parsed) (k : String) : Option Parsed :=
  lastLookup ((sales.filter (fun s => jsTruthyStr s.assetid)).map
    (fun s => (jsStringOfId s.assetid, s))) k

/-- The `completed` purchase leg pushed when a purchase matches a sale. -/
def mkCompletedPurchase (p s : Parsed) : LinkedRecord :=
  { transaction_id := "purchase:" ++ p.id
    transaction_status := "completed"
    role := "purchase"
    purchase_id := p.id
    purchase := p
    linked_sale_id := some s.id
    linked_purchase_id := none
    time_sold := p.time_sold }

/-- The `completed` sale leg pushed alongside it. -/
def mkCompletedSale (s p : Parsed) : LinkedRecord :=
  { transaction_id := "sale:" ++ s.id
    transaction_status := "completed"
    role := "sale"
    purchase_id := s.id
    purchase := s
    linked_sale_id := none
    linked_purchase_id := some p.id
    time_sold := s.time_sold }

/-- The `uncompleted` record pushed for an unmatched purchase. -/
def mkUncompleted (p : Parsed) : LinkedRecord :=
  { transaction_id := "purchase:" ++ p.id
    transaction_status := "uncompleted"
    role := "purchase"
    purchase_id := p.id
    purchase := p
    linked_sale_id := none
    linked_purchase_id := none
    time_sold := p.time_sold }

/-- The `received` record pushed for an unconsumed sale. -/
def mkReceived (s : Parsed) : LinkedRecord :=
  { transaction_id := "sale:" ++ s.id
    transaction_status := "received"
    role := "sale"
    purchase_id := s.id
    purchase := s
    linked_sale_id := none
    linked_purchase_id := none
    time_sold := s.time_sold }

/-- One iteration of the linking loop over `accountPurchases`: probe the
(immutable) sales index by `String(purchase.new_id)` and push either the
two completed legs or one uncompleted record. -/
def linkPurchase (sales : List Parsed) (p : Parsed) : List LinkedRecord :=
  match getSaleByAssetId sales (jsStringOfId p.new_id) with
  | some s => [mkCompletedPurchase p s, mkCompletedSale s p]
  | none => [mkUncompleted p]

/-- `matchedSaleIds` after the linking loop: the id of the matched sale for
each matching purchase, in purchase order (the set is only read by the
second loop, after the first completes). -/
def matchedSaleIds (purchases sales : List Parsed) : List String :=
  purchases.filterMap (fun p => (getSaleByAssetId sales (jsStringOfId p.new_id)).map (fun s => s.id))

/-- The full `transactions` list: the linking loop pushes records in
purchase order, then the second loop appends a `received` record for every
sale whose id was not consumed. -/
def buildTransactions (purchases sales : List Parsed) : List LinkedRecord :=
  purchases.flatMap (linkPurchase sales) ++
    (sales.filter (fun s => !((matchedSaleIds purchases sales).contains s.id))).map mkReceived

/-- Whether a purchase's `String(new_id)` probe of the sales index hits. -/
def matchesSale (sales : List Parsed) (p : Parsed) : Bool :=
  (getSaleByAssetId sales (jsStringOfId p.new_id)).isSome

/-- The single purchase-role record the linking loop emits for a purchase
(the completed leg on a hit, the uncompleted record on a miss). -/
def purchaseLegOf (sales : List Parsed) (p : Parsed) : LinkedRecord :=
  match getSaleByAssetId sales (jsStringOfId p.new_id) with
  | some s => mkCompletedPurchase p s
  | none => mkUncompleted p

/-- Predicate of the `stats` reduce counting `completed` (on the sale leg). -/
def isCompletedSaleRec (t : LinkedRecord) : Bool :=
  t.transaction_status == "completed" && t.role == "sale"

/-- Predicate of the `stats` reduce counting `uncompleted`. -/
def isUncompletedRec (t : LinkedRecord) : Bool :=
  t.transaction_status == "uncompleted"

/-- Predicate of the `stats` reduce counting `received`. -/
def isReceivedRec (t : LinkedRecord) : Bool :=
  t.transaction_status == "received"

/-- The parser body once `Object.entries(history.purchases)` has succeeded
(the `stats` reduce is the three `countP`s). -/
def parseEntriesResult (mySteamId : String) (assets : Option Catalog)
    (entries : List (String × RawTransaction)) : ParseResult :=
  let accountPurchases := purchasesOf mySteamId assets entries
  let accountSales := salesOf mySteamId assets entries
  let txs := buildTransactions accountPurchases accountSales
  { transactions := txs
    purchases_count := accountPurchases.length
    completed_purchases_count := txs.countP isCompletedSaleRec
    uncompleted_purchases_count := txs.countP isUncompletedRec
    sales_count := accountSales.length
    received_sales_count := txs.countP isReceivedRec
    totalTransactions := accountPurchases.length + accountSales.length }

/-- `MarketAnalyzer.parseMarketHistory`. A `none` history hits the explicit
`throw new Error("Invalid history object")`; a history without a purchases
collection makes `Object.entries(undefined)` throw a TypeError. -/
def parseMarketHistory (history : Option Ledger) (steamId : String) :
    Except String ParseResult :=
  match history with
  | none => Except.error ("Invalid history object")
  | some h =>
    match h.purchases with
    | none => Except.error ("TypeError: cannot convert undefined purchases to object")
    | some entries => Except.ok (parseEntriesResult steamId h.assets entries)

/-! ### ROI Calculator (`calculateROI`, lines 234–282) -/

/-- One per-pair ROI result. `roi_percent` carries
`Number(roi.toFixed(2))`. -/
structure ROIRecord where
  transaction_id : String
  market_name : String
  appid : Option Nat
  buy_price : Int
  sell_price : Int
  profit : Int
  roi_percent : ℚ
  time_purchase : Option Int
  time_sale : Option Int
  purchase_raw : Parsed
  sale_raw : Parsed
deriving DecidableEq, Repr

/-- `salesMap.get k`: the `Map` over all sale-role records keyed by their
`purchase_id` (last wins on duplicate keys). -/
def salesMapROI (transactions : List LinkedRecord) (k : String) : Option LinkedRecord :=
  lastLookup ((transactions.filter (fun t => t.role == "sale")).map
    (fun t => (t.purchase_id, t))) k

/-- The result object pushed for one completed pair (`buy = purchaseTx.purchase`,
`sell = saleTx.purchase`). -/
def mkROIRecord (t saleTx : LinkedRecord) : ROIRecord :=
  let buy := t.purchase
  let sell := saleTx.purchase
  let buyPrice := buy.paid_total
  let sellPrice := jsOrInt0 sell.raw.received_amount
  let profit := sellPrice - buyPrice
  let roi : ℚ := if buyPrice > 0 then ((profit : ℚ) / (buyPrice : ℚ)) * 100 else 0
  { transaction_id := t.purchase_id
    market_name := buy.market_name
    appid := buy.appid
    buy_price := buyPrice
    sell_price := sellPrice
    profit := profit
    roi_percent := jsToFixed2 roi
    time_purchase := jsOrNullInt buy.time_sold
    time_sale := jsOrNullInt sell.time_sold
    purchase_raw := buy
    sale_raw := sell }

/-- One iteration of the `calculateROI` loop: `continue` on anything that is
not a completed purchase record, on a falsy `linked_sale_id`, and on a
failed sales-map probe. -/
def roiOne (salesMap : String → Option LinkedRecord) (t : LinkedRecord) : Option ROIRecord :=
  if t.role == "purchase" && t.transaction_status == "completed" then
    match t.linked_sale_id with
    | none => none
    | some saleId =>
      if saleId == "" then none
      else
        match salesMap saleId with
        | none => none
        | some saleTx => some (mkROIRecord t saleTx)
  else none

/-- The `results` list accumulated by `calculateROI`'s loop. -/
def calcROIList (transactions : List LinkedRecord) : List ROIRecord :=
  transactions.filterMap (roiOne (salesMapROI transactions))

/-- `MarketAnalyzer.calculateROI`. `none` models a non-array argument, on
which the explicit `Array.isArray` guard throws. -/
def calculateROI (input : Option (List LinkedRecord)) : Except String (List ROIRecord) :=
  match input with
  | none => Except.error ("transactions must be an array")
  | some transactions => Except.ok (calcROIList transactions)

/-! ### Holdings Matcher (`matchInventoryWithPurchases`, lines 167–227) -/

/-- One current-holdings item (only the fields the matcher reads). -/
structure InventoryItem where
  assetid : String
  icon_url : Option String := none
deriving DecidableEq, Repr

/-- One element of the matcher's `matched`/`unmatched` arrays: the spread of
the eligible purchase plus branch-specific extras (`icon_url` only on
matched items, the duplicate `market_name` only on unmatched ones). -/
structure MatchedItem where
  appid : Option Nat
  assetid : Option String
  market_hash_name : String
  paid_amount : Int
  paid_fee : Int
  paid_total : Int
  currencyid : Option Nat
  time_sold : Option Int
  transaction_id : String
  transaction_status : String
  icon_url : Option String := none
  market_name : Option String := none
  match_type : String
deriving DecidableEq, Repr

/-- The matcher's `statistics` sub-object. -/
structure PctStats where
  matched_percentage : String
  unmatched_percentage : String
deriving DecidableEq, Repr

/-- The matcher's return object. -/
structure MatchResult where
  matched : List MatchedItem
  unmatched : List MatchedItem
  total_purchases : Nat
  matched_count : Nat
  unmatched_count : Nat
  statistics : PctStats
deriving DecidableEq, Repr

/-- `inventoryMap.get k` (`new Map`, last wins). -/
def invLookup (inventory : List InventoryItem) (k : String) : Option InventoryItem :=
  lastLookup (inventory.map (fun i => (i.assetid, i))) k

/-- The `purchases` list the matcher iterates: purchase-role records with a
truthy `new_id`. -/
def eligiblePurchases (transactions : List LinkedRecord) : List LinkedRecord :=
  transactions.filter (fun t => t.role == "purchase" && jsTruthyStr t.purchase.new_id)

/-- The `baseItem` object built for each eligible purchase. -/
def baseItemOf (t : LinkedRecord) : MatchedItem :=
  { appid := t.purchase.appid
    assetid := t.purchase.new_id
    market_hash_name := t.purchase.market_name
    paid_amount := t.purchase.paid_amount
    paid_fee := t.purchase.paid_fee
    paid_total := t.purchase.paid_total
    currencyid := t.purchase.currencyid
    time_sold := t.purchase.time_sold
    transaction_id := t.transaction_id
    transaction_status := t.transaction_status
    icon_url := none
    market_name := none
    match_type := "" }

/-- Whether the inventory probe by `String(purchase.new_id)` hits. -/
def invHit (inventory : List InventoryItem) (t : LinkedRecord) : Bool :=
  (invLookup inventory (jsStringOfId t.purchase.new_id)).isSome

/-- The matched-branch record. -/
def mkMatchedItem (inventory : List InventoryItem) (t : LinkedRecord) : MatchedItem :=
  { baseItemOf t with
    icon_url := (invLookup inventory (jsStringOfId t.purchase.new_id)).bind InventoryItem.icon_url
    match_type := "purchased" }

/-- The unmatched-branch record. -/
def mkUnmatchedItem (t : LinkedRecord) : MatchedItem :=
  { baseItemOf t with
    market_name := some t.purchase.market_name
    match_type := "other_source" }

/-- `MarketAnalyzer.matchInventoryWithPurchases`: partition the eligible
purchases by the inventory probe (the loop pushes to `matched`/`unmatched`
in input order) and render the two percentage strings, with the `"0%"`
ternary guard for an empty eligible list. -/
def matchInventoryWithPurchases (transactions : List LinkedRecord)
    (inventory : List InventoryItem) : MatchResult :=
  let purchases := eligiblePurchases transactions
  let matched := (purchases.filter (invHit inventory)).map (mkMatchedItem inventory)
  let unmatched := (purchases.filter (fun t => !(invHit inventory t))).map mkUnmatchedItem
  let total := purchases.length
  { matched := matched
    unmatched := unmatched
    total_purchases := total
    matched_count := matched.length
    unmatched_count := unmatched.length
    statistics :=
      { matched_percentage :=
          if total != 0 then jsToFixed2Pct (((matched.length : ℚ) / (total : ℚ)) * 100) else "0%"
        unmatched_percentage :=
          if total != 0 then jsToFixed2Pct (((unmatched.length : ℚ) / (total : ℚ)) * 100) else "0%" } }

/-! ### Statistics Aggregator (`calculateTransactionStatistics`, lines 289–388) -/

/-- The per-display-name accumulator (the source's `uncomletedCount` typo is
kept). `totalReceived` is `none` once NaN. -/
structure ItemStat where
  marketName : String
  totalInvested : Int
  totalReceived : Option Int
  purchaseCount : Nat
  saleCount : Nat
  completedCount : Nat
  receivedCount : Nat
  uncomletedCount : Nat
deriving DecidableEq, Repr

/-- The fold state: the two running overall totals plus the `itemStats` map
in insertion order. -/
structure StatsState where
  totalInvested : Int
  totalReceived : Option Int
  items : List (String × ItemStat)
deriving DecidableEq, Repr

/-- The fresh accumulator inserted on first sight of a display name. -/
def freshStat (name : String) : ItemStat :=
  { marketName := name
    totalInvested := 0
    totalReceived := some 0
    purchaseCount := 0
    saleCount := 0
    completedCount := 0
    receivedCount := 0
    uncomletedCount := 0 }

/-- `if (!itemStats.has(name)) itemStats.set(name, fresh)`. -/
def ensureItem (l : List (String × ItemStat)) (name : String) : List (String × ItemStat) :=
  if l.any (fun e => e.1 == name) then l else l ++ [(name, freshStat name)]

/-- In-place mutation of the map entry for `name` (keys are unique by
construction of `ensureItem`, so at most one entry is touched). -/
def updateItem (l : List (String × ItemStat)) (name : String)
    (f : ItemStat → ItemStat) : List (String × ItemStat) :=
  l.map (fun e => if e.1 == name then (e.1, f e.2) else e)

/-- One iteration of the aggregation loop. The purchase branch adds
`paid_total` to the invested totals; the sale branch adds the raw
`received_amount` — read with **no** default — to the received totals
(NaN-propagating). -/
def statsStep (st : StatsState) (t : LinkedRecord) : StatsState :=
  let name := t.purchase.market_name
  let items := ensureItem st.items name
  if t.role == "purchase" then
    let invested := t.purchase.paid_total
    { totalInvested := st.totalInvested + invested
      totalReceived := st.totalReceived
      items := updateItem items name (fun s =>
        { s with
          totalInvested := s.totalInvested + invested
          purchaseCount := s.purchaseCount + 1
          completedCount :=
            if t.transaction_status == "completed" then s.completedCount + 1 else s.completedCount
          uncomletedCount :=
            if t.transaction_status == "uncompleted" then s.uncomletedCount + 1
            else s.uncomletedCount }) }
  else if t.role == "sale" then
    let received := t.purchase.raw.received_amount
    { totalInvested := st.totalInvested
      totalReceived := jsAdd st.totalReceived received
      items := updateItem items name (fun s =>
        { s with
          totalReceived := jsAdd s.totalReceived received
          saleCount := s.saleCount + 1
          receivedCount :=
            if t.transaction_status == "received" then s.receivedCount + 1 else s.receivedCount }) }
  else { st with items := items }

/-- The whole aggregation loop. -/
def statsFold (transactions : List LinkedRecord) : StatsState :=
  transactions.foldl statsStep { totalInvested := 0, totalReceived := some 0, items := [] }

/-- The `totalReceived` accumulator of the `itemStats` entry for a display
name (`none` inside = the NaN value, outer `none` = no entry). -/
def itemRecv (l : List (String × ItemStat)) (name : String) : Option (Option Int) :=
  (l.find? (fun e => e.1 == name)).map (fun e => e.2.totalReceived)

/-- The `overall` rollup object (`roiPercent = none` models the NaN that
`parseFloat("NaN")` yields when `totalProfit` is NaN). -/
structure Overall where
  totalInvested : Int
  totalReceived : Option Int
  totalProfit : Option Int
  roiPercent : Option ℚ
  totalTransactions : Nat
  purchasesCount : Nat
  salesCount : Nat
  completedPurchases : Nat
  uncomletedPurchases : Nat
  receivedSales : Nat
deriving DecidableEq, Repr

/-- `MarketAnalyzer.calculateTransactionStatistics`: fold the transaction
list, then build `overall`, trusting the parser's precomputed counts. The
ROI ternary guards the division: a non-positive `totalInvested` yields the
number `0` outright. -/
def calculateTransactionStatistics (data : ParseResult) : Overall :=
  let st := statsFold data.transactions
  let totalProfit := st.totalReceived.map (fun r => r - st.totalInvested)
  let roiPercent : Option ℚ :=
    if st.totalInvested > 0 then
      totalProfit.map (fun p => jsToFixed2 (((p : ℚ) / (st.totalInvested : ℚ)) * 100))
    else some 0
  { totalInvested := st.totalInvested
    totalReceived := st.totalReceived
    totalProfit := totalProfit
    roiPercent := roiPercent
    totalTransactions := data.transactions.length
    purchasesCount := data.purchases_count
    salesCount := data.sales_count
    completedPurchases := data.completed_purchases_count
    uncomletedPurchases := data.uncompleted_purchases_count
    receivedSales := data.received_sales_count }

/-! ### Concrete inputs used by witnesses and counterexamples -/

/-- The account identifier used by all concrete inputs below. -/
def me : String := "me"

/-- Scenario A purchase: asset `X`, post-disposal id `X2`, paid 10. -/
def rawPurchase1 : RawTransaction :=
  { steamid_purchaser := some "me"
    asset := some { appid := some 730, contextid := some 2, id := some "X", new_id := some "X2" }
    market_name := some "ItemA"
    paid_amount := some 10
    paid_fee := some 0
    currencyid := some 1
    time_sold := some 100 }

/-- A second purchase resolving to the same post-disposal id `X2`. -/
def rawPurchase2 : RawTransaction :=
  { steamid_purchaser := some "me"
    asset := some { appid := some 730, contextid := some 2, id := some "Y", new_id := some "X2" }
    market_name := some "ItemA"
    paid_amount := some 20
    paid_fee := some 0
    currencyid := some 1
    time_sold := some 150 }

/-- Scenario A sale: asset id `X2`, received 15, different purchaser. -/
def rawSale1 : RawTransaction :=
  { steamid_purchaser := some "buyer"
    asset := some { appid := some 730, contextid := some 2, id := some "X2" }
    market_name := some "ItemA"
    paid_amount := some 12
    paid_fee := some 3
    currencyid := some 1
    time_sold := some 200
    received_amount := some 15 }

/-- The same sale with the `received_amount` field absent. -/
def rawSaleNoRecv : RawTransaction :=
  { steamid_purchaser := some "buyer"
    asset := some { appid := some 730, contextid := some 2, id := some "X2" }
    market_name := some "ItemA"
    paid_amount := some 12
    paid_fee := some 3
    currencyid := some 1
    time_sold := some 200 }

/-- A purchase with paid total 0 and post-disposal id `Z2`. -/
def rawPurchaseZero : RawTransaction :=
  { steamid_purchaser := some "me"
    asset := some { appid := some 730, contextid := some 2, id := some "Z", new_id := some "Z2" }
    market_name := some "ItemZ"
    paid_amount := some 0
    paid_fee := some 0
    currencyid := some 1
    time_sold := some 300 }

/-- A sale of asset id `Z2`, received 7. -/
def rawSaleZ : RawTransaction :=
  { steamid_purchaser := some "buyer"
    asset := some { appid := some 730, contextid := some 2, id := some "Z2" }
    market_name := some "ItemZ"
    paid_amount := some 5
    paid_fee := some 1
    currencyid := some 1
    time_sold := some 400
    received_amount := some 7 }

/-- Scenario A entries: one purchase linked to one sale. -/
def scenarioAEntries : List (String × RawTransaction) :=
  [("p1", rawPurchase1), ("s1", rawSale1)]

/-- Degenerate entries: two purchases share post-disposal id `X2`, one sale
has asset id `X2`. -/
def dupEntries : List (String × RawTransaction) :=
  [("p1", rawPurchase1), ("p2", rawPurchase2), ("s1", rawSale1)]

/-- Entries whose single completed pair has buy price 0. -/
def zeroEntries : List (String × RawTransaction) :=
  [("pz", rawPurchaseZero), ("sz", rawSaleZ)]

/-- Entries whose sale lacks a `received_amount`. -/
def noRecvEntries : List (String × RawTransaction) :=
  [("p1", rawPurchase1), ("s1", rawSaleNoRecv)]

/-- Scenario A ledger, no catalog. -/
def ledgerA : Ledger := { purchases := some scenarioAEntries }

/-- The degenerate duplicate-purchase ledger. -/
def ledgerDup : Ledger := { purchases := some dupEntries }

/-- Parse result of scenario A (computed, used by witnesses). -/
def resultA : ParseResult := parseEntriesResult me none scenarioAEntries

/-- Parse result of the zero-buy-price ledger. -/
def resultZero : ParseResult := parseEntriesResult me none zeroEntries

/-- Parse result of the missing-received-amount ledger. -/
def resultNoRecv : ParseResult := parseEntriesResult me none noRecvEntries

/-- Parse result of an empty ledger. -/
def resultEmpty : ParseResult := parseEntriesResult me none []

/-- The parsed scenario A purchase. -/
def parsedP1 : Parsed := parseOne me none ("p1", rawPurchase1)

/-- The parsed scenario A sale. -/
def parsedS1 : Parsed := parseOne me none ("s1", rawSale1)

/-- The parsed zero-price purchase and its sale. -/
def parsedPz : Parsed := parseOne me none ("pz", rawPurchaseZero)

/-- The parsed sale of the zero-price pair. -/
def parsedSz : Parsed := parseOne me none ("sz", rawSaleZ)

/-- The parsed sale with no received amount. -/
def parsedS1n : Parsed := parseOne me none ("s1", rawSaleNoRecv)

/-- The ROI record of scenario A's completed pair. -/
def roiRecA : ROIRecord :=
  mkROIRecord (mkCompletedPurchase parsedP1 parsedS1) (mkCompletedSale parsedS1 parsedP1)

/-- The ROI record of the zero-buy-price completed pair. -/
def roiRecZ : ROIRecord :=
  mkROIRecord (mkCompletedPurchase parsedPz parsedSz) (mkCompletedSale parsedSz parsedPz)

/-! ### Lemmas and claim theorems -/


theorem length_filterMap_eq_countP {α β : Type} (f : α → Option β) (l : List α) :
    (l.filterMap f).length = l.countP (fun a => (f a).isSome) := by
  induction l with
  | nil => rfl
  | cons a t ih =>
    cases h : f a <;> simp [List.filterMap_cons, h, List.countP_cons, ih]

theorem countP_flatMap {α β : Type} (g : α → List β) (p : β → Bool) (l : List α) :
    (l.flatMap g).countP p = (l.map (fun a => (g a).countP p)).sum := by
  induction l with
  | nil => rfl
  | cons a t ih => simp [List.flatMap_cons, List.countP_append, ih]

theorem sum_map_ite {α : Type} (l : List α) (q : α → Bool) :
    (l.map (fun a => if q a then 1 else 0)).sum = l.countP q := by
  induction l with
  | nil => rfl
  | cons a t ih => cases h : q a <;> simp [List.countP_cons, h, ih, Nat.add_comm]

theorem countP_linkPurchase_completed (S : List Parsed) (p : Parsed) :
    (linkPurchase S p).countP isCompletedSaleRec = if matchesSale S p then 1 else 0 := by
  unfold linkPurchase matchesSale
  cases h : getSaleByAssetId S (jsStringOfId p.new_id) <;> rfl

theorem countP_linkPurchase_uncompleted (S : List Parsed) (p : Parsed) :
    (linkPurchase S p).countP isUncompletedRec = if matchesSale S p then 0 else 1 := by
  unfold linkPurchase matchesSale
  cases h : getSaleByAssetId S (jsStringOfId p.new_id) <;> rfl

theorem countP_linkPurchase_received (S : List Parsed) (p : Parsed) :
    (linkPurchase S p).countP isReceivedRec = 0 := by
  unfold linkPurchase
  cases h : getSaleByAssetId S (jsStringOfId p.new_id) <;> rfl

theorem length_linkPurchase (S : List Parsed) (p : Parsed) :
    (linkPurchase S p).length = if matchesSale S p then 2 else 1 := by
  unfold linkPurchase matchesSale
  cases h : getSaleByAssetId S (jsStringOfId p.new_id) <;> rfl



theorem flatMap_countP_eq (S : List Parsed) (P : List Parsed) (q : LinkedRecord → Bool)
    (v : Parsed → Nat) (hv : ∀ p, (linkPurchase S p).countP q = v p) :
    ((P.flatMap (linkPurchase S)).countP q) = (P.map v).sum := by
  induction P with
  | nil => rfl
  | cons p t ih => simp [List.flatMap_cons, List.countP_append, ih, hv]

theorem countP_received_map (l : List Parsed) (q : LinkedRecord → Bool) :
    ((l.map mkReceived).countP q) = l.countP (fun s => q (mkReceived s)) := by
  rw [List.countP_map]; rfl

theorem countP_buildTransactions (P S : List Parsed) (q : LinkedRecord → Bool)
    (v : Parsed → Nat) (hv : ∀ p, (linkPurchase S p).countP q = v p) :
    (buildTransactions P S).countP q =
      (P.map v).sum +
        (S.filter (fun s => !((matchedSaleIds P S).contains s.id))).countP
          (fun s => q (mkReceived s)) := by
  unfold buildTransactions
  rw [List.countP_append, flatMap_countP_eq S P q v hv, countP_received_map]

theorem sum_map_two_one {α : Type} (l : List α) (q : α → Bool) :
    (l.map (fun a => if q a then 2 else 1)).sum = l.length + l.countP q := by
  induction l with
  | nil => rfl
  | cons a t ih =>
    simp only [List.map_cons, List.sum_cons, ih, List.length_cons, List.countP_cons]
    cases q a <;> simp <;> omega

theorem completed_count_eq (P S : List Parsed) :
    (buildTransactions P S).countP isCompletedSaleRec = P.countP (matchesSale S) := by
  rw [countP_buildTransactions P S _ (fun p => if matchesSale S p then 1 else 0)
        (countP_linkPurchase_completed S)]
  have h0 : (S.filter (fun s => !((matchedSaleIds P S).contains s.id))).countP
      (fun s => isCompletedSaleRec (mkReceived s)) = 0 := by
    apply List.countP_eq_zero.mpr
    intro a _
    simp [isCompletedSaleRec, mkReceived]
  rw [h0, sum_map_ite]
  omega

theorem uncompleted_count_eq (P S : List Parsed) :
    (buildTransactions P S).countP isUncompletedRec = P.countP (fun p => !(matchesSale S p)) := by
  rw [countP_buildTransactions P S _ (fun p => if matchesSale S p then 0 else 1)
        (countP_linkPurchase_uncompleted S)]
  have h0 : (S.filter (fun s => !((matchedSaleIds P S).contains s.id))).countP
      (fun s => isUncompletedRec (mkReceived s)) = 0 := by
    apply List.countP_eq_zero.mpr
    intro a _
    simp [isUncompletedRec, mkReceived]
  have h1 : P.map (fun p => if matchesSale S p then 0 else 1) =
      P.map (fun a => if !(matchesSale S a) then 1 else 0) := by
    apply List.map_congr_left
    intro a _
    cases matchesSale S a <;> rfl
  rw [h0, h1, sum_map_ite]
  omega

theorem received_count_eq (P S : List Parsed) :
    (buildTransactions P S).countP isReceivedRec =
      (S.filter (fun s => !((matchedSaleIds P S).contains s.id))).length := by
  rw [countP_buildTransactions P S _ (fun _ => 0) (countP_linkPurchase_received S)]
  have h1 : (S.filter (fun s => !((matchedSaleIds P S).contains s.id))).countP
      (fun s => isReceivedRec (mkReceived s)) =
      (S.filter (fun s => !((matchedSaleIds P S).contains s.id))).length := by
    rw [List.countP_eq_length_filter, List.filter_eq_self.mpr]
    intro a _
    rfl
  rw [h1]
  have h2 : (P.map (fun _ => 0)).sum = 0 := by
    induction P with
    | nil => rfl
    | cons p t ih => simp [ih]
  omega

theorem length_buildTransactions (P S : List Parsed) :
    (buildTransactions P S).length =
      P.length + P.countP (matchesSale S) +
        (S.filter (fun s => !((matchedSaleIds P S).contains s.id))).length := by
  unfold buildTransactions
  rw [List.length_append, List.length_flatMap, List.length_map]
  have h1 : P.map (List.length ∘ linkPurchase S) =
      P.map (fun p => if matchesSale S p then 2 else 1) := by
    apply List.map_congr_left
    intro a _
    simp [Function.comp, length_linkPurchase]
  rw [h1, sum_map_two_one]



theorem getSale_mem {S : List Parsed} {k : String} {s : Parsed}
    (h : getSaleByAssetId S k = some s) : s ∈ S ∧ s.assetid = some k := by
  unfold getSaleByAssetId lastLookup at h
  cases hf : ((S.filter (fun s => jsTruthyStr s.assetid)).map
      (fun s => (jsStringOfId s.assetid, s))).reverse.find? (fun e => e.1 == k) with
  | none => rw [hf] at h; exact absurd h (by simp)
  | some e =>
    rw [hf] at h
    have hkey : e.1 = k := by
      have := List.find?_some hf
      simpa using this
    have hs : e.2 = s := by simpa using h
    have hmem := List.mem_of_find?_eq_some hf
    rw [List.mem_reverse] at hmem
    rcases List.mem_map.mp hmem with ⟨s', hs', heq⟩
    rcases List.mem_filter.mp hs' with ⟨hsS, htr⟩
    have h1 : jsStringOfId s'.assetid = e.1 := congrArg Prod.fst heq
    have h2 : s' = e.2 := congrArg Prod.snd heq
    have hss : s' = s := h2.trans hs
    rw [hss] at hsS htr h1
    refine ⟨hsS, ?_⟩
    cases ha : s.assetid with
    | none => rw [ha] at htr; exact absurd htr (by simp [jsTruthyStr])
    | some str =>
      rw [ha] at h1
      rw [show jsStringOfId (some str) = str from rfl] at h1
      rw [h1, hkey]

theorem matchedSaleIds_length (P S : List Parsed) :
    (matchedSaleIds P S).length = P.countP (matchesSale S) := by
  unfold matchedSaleIds
  rw [length_filterMap_eq_countP]
  congr 1
  funext p
  cases h : getSaleByAssetId S (jsStringOfId p.new_id) <;> simp [matchesSale, h]

theorem matchedSaleIds_sub (P S : List Parsed) :
    ∀ b ∈ matchedSaleIds P S, b ∈ S.map Parsed.id := by
  intro b hb
  unfold matchedSaleIds at hb
  rcases List.mem_filterMap.mp hb with ⟨p, _, hfp⟩
  cases hg : getSaleByAssetId S (jsStringOfId p.new_id) with
  | none => rw [hg] at hfp; exact absurd hfp (by simp)
  | some s =>
    rw [hg] at hfp
    have : s.id = b := by simpa using hfp
    subst this
    exact List.mem_map_of_mem _ (getSale_mem hg).1

theorem filter_contains_length {A B : List String} (hA : A.Nodup) (hB : B.Nodup)
    (hBA : ∀ b ∈ B, b ∈ A) :
    (A.filter (fun a => B.contains a)).length = B.length := by
  have hfil : (A.filter (fun a => B.contains a)).Nodup := hA.filter _
  have hmem : ∀ x, x ∈ A.filter (fun a => B.contains a) ↔ x ∈ B := by
    intro x
    rw [List.mem_filter]
    constructor
    · intro hx
      exact List.elem_iff.mp hx.2
    · intro hx
      exact ⟨hBA x hx, List.elem_iff.mpr hx⟩
  have hfin : (A.filter (fun a => B.contains a)).toFinset = B.toFinset := by
    ext x
    rw [List.mem_toFinset, List.mem_toFinset, hmem x]
  calc (A.filter (fun a => B.contains a)).length
      = (A.filter (fun a => B.contains a)).toFinset.card :=
        (List.toFinset_card_of_nodup hfil).symm
    _ = B.toFinset.card := by rw [hfin]
    _ = B.length := List.toFinset_card_of_nodup hB



theorem consumed_filter_length (P S : List Parsed)
    (hS : (S.map Parsed.id).Nodup) (hK : (matchedSaleIds P S).Nodup) :
    (S.filter (fun s => (matchedSaleIds P S).contains s.id)).length =
      (matchedSaleIds P S).length := by
  have h := filter_contains_length hS hK (matchedSaleIds_sub P S)
  rw [← h, List.filter_map]
  simp only [List.length_map]
  rfl

theorem countP_add_countP_not {α : Type} (l : List α) (q : α → Bool) :
    l.countP q + l.countP (fun a => !(q a)) = l.length := by
  induction l with
  | nil => rfl
  | cons a t ih =>
    simp only [List.countP_cons, List.length_cons]
    cases q a <;> simp <;> omega

theorem conservation_eq2 (P S : List Parsed) :
    (buildTransactions P S).countP isCompletedSaleRec +
      (buildTransactions P S).countP isUncompletedRec = P.length := by
  rw [completed_count_eq, uncompleted_count_eq, countP_add_countP_not]

theorem conservation_eq3 (P S : List Parsed)
    (hS : (S.map Parsed.id).Nodup) (hK : (matchedSaleIds P S).Nodup) :
    (buildTransactions P S).countP isCompletedSaleRec +
      (buildTransactions P S).countP isReceivedRec = S.length := by
  rw [completed_count_eq, received_count_eq]
  have h1 : P.countP (matchesSale S) = (matchedSaleIds P S).length :=
    (matchedSaleIds_length P S).symm
  rw [h1, ← consumed_filter_length P S hS hK]
  have h2 := countP_add_countP_not S (fun s => (matchedSaleIds P S).contains s.id)
  rw [List.countP_eq_length_filter, List.countP_eq_length_filter] at h2
  exact h2

theorem conservation_eq1 (P S : List Parsed)
    (hS : (S.map Parsed.id).Nodup) (hK : (matchedSaleIds P S).Nodup) :
    (buildTransactions P S).length = P.length + S.length := by
  rw [length_buildTransactions]
  have h3 := conservation_eq3 P S hS hK
  rw [completed_count_eq, received_count_eq] at h3
  omega




theorem filter_purchase_flatMap (S : List Parsed) (P : List Parsed) :
    (P.flatMap (linkPurchase S)).filter (fun t => t.role == "purchase") =
      P.map (purchaseLegOf S) := by
  induction P with
  | nil => rfl
  | cons p t ih =>
    rw [List.flatMap_cons, List.filter_append, ih, List.map_cons]
    have h1 : (linkPurchase S p).filter (fun t => t.role == "purchase") = [purchaseLegOf S p] := by
      unfold linkPurchase purchaseLegOf
      cases h : getSaleByAssetId S (jsStringOfId p.new_id) <;> rfl
    rw [h1]
    rfl

theorem filter_purchase_buildTransactions (P S : List Parsed) :
    (buildTransactions P S).filter (fun t => t.role == "purchase") =
      P.map (purchaseLegOf S) := by
  unfold buildTransactions
  rw [List.filter_append]
  have h2 : (((S.filter (fun s => !((matchedSaleIds P S).contains s.id))).map mkReceived).filter
      (fun t => t.role == "purchase")) = [] := by
    apply List.filter_eq_nil_iff.mpr
    intro a ha
    rcases List.mem_map.mp ha with ⟨s, _, heq⟩
    rw [← heq]
    simp [mkReceived]
  rw [h2, List.append_nil, filter_purchase_flatMap]

theorem countP_link_saleLeg (S : List Parsed) (p : Parsed) (sid : String) :
    (linkPurchase S p).countP (fun t => isCompletedSaleRec t && t.purchase_id == sid) =
      if ((getSaleByAssetId S (jsStringOfId p.new_id)).map Parsed.id) == some sid
      then 1 else 0 := by
  unfold linkPurchase
  cases h : getSaleByAssetId S (jsStringOfId p.new_id) with
  | none => rfl
  | some s =>
    simp only [List.countP_cons, List.countP_nil, Option.map_some]
    have hcp : (isCompletedSaleRec (mkCompletedPurchase p s) &&
        (mkCompletedPurchase p s).purchase_id == sid) = false := rfl
    have hcs : (isCompletedSaleRec (mkCompletedSale s p) &&
        (mkCompletedSale s p).purchase_id == sid) = (s.id == sid) := rfl
    have hval : ((Option.map Parsed.id (some s)) == some sid) = (s.id == sid) := rfl
    rw [hcp, hcs, hval]
    cases hq : s.id == sid <;> simp [hq]

theorem saleLeg_count (P S : List Parsed) (sid : String) :
    (buildTransactions P S).countP (fun t => isCompletedSaleRec t && t.purchase_id == sid) =
      P.countP (fun p =>
        ((getSaleByAssetId S (jsStringOfId p.new_id)).map Parsed.id) == some sid) := by
  rw [countP_buildTransactions P S _
    (fun p => if ((getSaleByAssetId S (jsStringOfId p.new_id)).map Parsed.id) == some sid
      then 1 else 0) (fun p => countP_link_saleLeg S p sid)]
  have h0 : (S.filter (fun s => !((matchedSaleIds P S).contains s.id))).countP
      (fun s => (fun t => isCompletedSaleRec t && t.purchase_id == sid) (mkReceived s)) = 0 := by
    apply List.countP_eq_zero.mpr
    intro a _
    intro hcontra
    exact Bool.noConfusion hcontra
  rw [h0, sum_map_ite]
  omega

theorem received_byid_count (P S : List Parsed) (sid : String) :
    (buildTransactions P S).countP (fun t => isReceivedRec t && t.purchase_id == sid) =
      (S.filter (fun s => !((matchedSaleIds P S).contains s.id))).countP
        (fun s => s.id == sid) := by
  rw [countP_buildTransactions P S _ (fun _ => 0) ?hv]
  case hv =>
    intro p
    unfold linkPurchase
    cases h : getSaleByAssetId S (jsStringOfId p.new_id) <;> rfl
  · have h2 : (S.filter (fun s => !((matchedSaleIds P S).contains s.id))).countP
        (fun s => (fun t => isReceivedRec t && t.purchase_id == sid) (mkReceived s)) =
        (S.filter (fun s => !((matchedSaleIds P S).contains s.id))).countP
        (fun s => s.id == sid) := by
      apply List.countP_congr
      intro a _
      rfl
    rw [h2]
    have h1 : (P.map (fun _ => 0)).sum = 0 := by
      induction P with
      | nil => rfl
      | cons p t ih => simp
    rw [h1]
    omega



theorem countP_filter_of {α : Type} (l : List α) (g r : α → Bool)
    (h : ∀ x ∈ l, r x = true → g x = true) :
    (l.filter g).countP r = l.countP r := by
  rw [List.countP_filter]
  apply List.countP_congr
  intro a ha
  cases hr : r a with
  | false => simp
  | true => simp [h a ha hr]

theorem consumed_not_received (P S : List Parsed) (s : Parsed)
    (hcons : (matchedSaleIds P S).contains s.id = true) :
    (buildTransactions P S).countP (fun t => isReceivedRec t && t.purchase_id == s.id) = 0 := by
  rw [received_byid_count]
  apply List.countP_eq_zero.mpr
  intro a ha hq
  rcases List.mem_filter.mp ha with ⟨_, hnc⟩
  have : a.id = s.id := by simpa using hq
  rw [this] at hnc
  rw [hcons] at hnc
  exact Bool.noConfusion hnc

theorem unconsumed_received_once (P S : List Parsed) (s : Parsed)
    (hS : (S.map Parsed.id).Nodup) (hmem : s ∈ S)
    (hunc : (matchedSaleIds P S).contains s.id = false) :
    (buildTransactions P S).countP (fun t => isReceivedRec t && t.purchase_id == s.id) = 1 := by
  rw [received_byid_count]
  have hall : ∀ x ∈ S, (x.id == s.id) = true →
      (!((matchedSaleIds P S).contains x.id)) = true := by
    intro x _ hx
    have : x.id = s.id := by simpa using hx
    rw [this, hunc]
    rfl
  rw [countP_filter_of S _ _ hall]
  have h1 : S.countP (fun x => x.id == s.id) = (S.map Parsed.id).countP (fun y => y == s.id) := by
    rw [List.countP_map]
    rfl
  rw [h1]
  have h2 : (S.map Parsed.id).countP (fun y => y == s.id) = (S.map Parsed.id).count s.id := rfl
  rw [h2]
  exact List.count_eq_one_of_mem hS (List.mem_map_of_mem _ hmem)

theorem mem_buildTransactions_of_match {P S : List Parsed} {p s : Parsed}
    (hp : p ∈ P) (hs : getSaleByAssetId S (jsStringOfId p.new_id) = some s) :
    mkCompletedPurchase p s ∈ buildTransactions P S ∧
      mkCompletedSale s p ∈ buildTransactions P S := by
  have hc : mkCompletedPurchase p s ∈ linkPurchase S p ∧
      mkCompletedSale s p ∈ linkPurchase S p := by
    unfold linkPurchase
    rw [hs]
    exact ⟨List.mem_cons_self _ _, List.mem_cons_of_mem _ (List.mem_cons_self _ _)⟩
  constructor
  · exact List.mem_append_left _ (List.mem_flatMap.mpr ⟨p, hp, hc.1⟩)
  · exact List.mem_append_left _ (List.mem_flatMap.mpr ⟨p, hp, hc.2⟩)



theorem salesMapROI_mem {txs : List LinkedRecord} {k : String} {st : LinkedRecord}
    (h : salesMapROI txs k = some st) : st ∈ txs ∧ st.role = "sale" := by
  unfold salesMapROI lastLookup at h
  cases hf : ((txs.filter (fun t => t.role == "sale")).map
      (fun t => (t.purchase_id, t))).reverse.find? (fun e => e.1 == k) with
  | none => rw [hf] at h; exact absurd h (by simp)
  | some e =>
    rw [hf] at h
    have hs : e.2 = st := by simpa using h
    have hmem := List.mem_of_find?_eq_some hf
    rw [List.mem_reverse] at hmem
    rcases List.mem_map.mp hmem with ⟨t, ht, heq⟩
    rcases List.mem_filter.mp ht with ⟨htxs, hrole⟩
    have h2 : t = e.2 := congrArg Prod.snd heq
    rw [h2, hs] at htxs hrole
    exact ⟨htxs, by simpa using hrole⟩

theorem calcROIList_spec {txs : List LinkedRecord} {rec : ROIRecord}
    (h : rec ∈ calcROIList txs) :
    ∃ t ∈ txs, t.role = "purchase" ∧ t.transaction_status = "completed" ∧
      rec.buy_price = t.purchase.paid_total ∧
      rec.profit = rec.sell_price - rec.buy_price ∧
      ∃ st ∈ txs, st.role = "sale" ∧
        rec.sell_price = jsOrInt0 st.purchase.raw.received_amount := by
  rcases List.mem_filterMap.mp h with ⟨t, ht, hro⟩
  unfold roiOne at hro
  split at hro
  case isFalse => exact absurd hro (by simp)
  case isTrue hcond =>
    rcases (Bool.and_eq_true _ _).mp hcond with ⟨hrole, hstat⟩
    have hrole' : t.role = "purchase" := by simpa using hrole
    have hstat' : t.transaction_status = "completed" := by simpa using hstat
    split at hro
    case h_1 => exact absurd hro (by simp)
    case h_2 saleId hsid =>
      split at hro
      case isTrue => exact absurd hro (by simp)
      case isFalse =>
        split at hro
        case h_1 => exact absurd hro (by simp)
        case h_2 saleTx hmap =>
          have hrec : mkROIRecord t saleTx = rec := by simpa using hro
          rcases salesMapROI_mem hmap with ⟨hstmem, hstrole⟩
          refine ⟨t, ht, hrole', hstat', ?_, ?_, saleTx, hstmem, hstrole, ?_⟩
          · rw [← hrec]; rfl
          · rw [← hrec]; rfl
          · rw [← hrec]; rfl

theorem calcROIList_buyzero {txs : List LinkedRecord} {rec : ROIRecord}
    (h : rec ∈ calcROIList txs) (hb : rec.buy_price = 0) : rec.roi_percent = 0 := by
  rcases List.mem_filterMap.mp h with ⟨t, ht, hro⟩
  unfold roiOne at hro
  split at hro
  case isFalse => exact absurd hro (by simp)
  case isTrue =>
    split at hro
    case h_1 => exact absurd hro (by simp)
    case h_2 saleId hsid =>
      split at hro
      case isTrue => exact absurd hro (by simp)
      case isFalse =>
        split at hro
        case h_1 => exact absurd hro (by simp)
        case h_2 saleTx hmap =>
          have hrec : mkROIRecord t saleTx = rec := by simpa using hro
          rw [← hrec] at hb ⊢
          unfold mkROIRecord at hb ⊢
          simp only at hb ⊢
          rw [hb]
          norm_num [jsToFixed2]


theorem jsAdd_none_left (x : Option Int) : jsAdd none x = none := by
  cases x <;> rfl

theorem jsAdd_none_right (x : Option Int) : jsAdd x none = none := by
  cases x <;> rfl

theorem statsStep_totalReceived_none {st : StatsState} (t : LinkedRecord)
    (h : st.totalReceived = none) : (statsStep st t).totalReceived = none := by
  unfold statsStep
  split
  · exact h
  · split
    · simp only [h, jsAdd_none_left]
    · exact h

theorem foldl_totalReceived_none (l : List LinkedRecord) :
    ∀ st : StatsState, st.totalReceived = none →
      (l.foldl statsStep st).totalReceived = none := by
  induction l with
  | nil => intro st h; exact h
  | cons t ts ih =>
    intro st h
    exact ih _ (statsStep_totalReceived_none t h)

theorem statsStep_sale_none {st : StatsState} {t : LinkedRecord}
    (hrole : t.role = "sale") (hrecv : t.purchase.raw.received_amount = none) :
    (statsStep st t).totalReceived = none := by
  unfold statsStep
  have h1 : (t.role == "purchase") = false := by rw [hrole]; rfl
  have h2 : (t.role == "sale") = true := by rw [hrole]; rfl
  rw [h1, h2]
  simp only [Bool.false_eq_true, if_false, if_true, hrecv, jsAdd_none_right]



theorem find?_updateItem (l : List (String × ItemStat)) (name q : String)
    (f : ItemStat → ItemStat) :
    (updateItem l name f).find? (fun e => e.1 == q) =
      (l.find? (fun e => e.1 == q)).map
        (fun e => if e.1 == name then (e.1, f e.2) else e) := by
  induction l with
  | nil => rfl
  | cons e t ih =>
    unfold updateItem at ih ⊢
    rw [List.map_cons]
    by_cases hq : (e.1 == q) = true
    · have hkey : ((if (e.1 == name) = true then (e.1, f e.2) else e).1 == q) = true := by
        split <;> exact hq
      rw [@List.find?_cons_of_pos _ (fun x : String × ItemStat => x.1 == q) _ _ hkey,
        @List.find?_cons_of_pos _ (fun x : String × ItemStat => x.1 == q) _ t hq]
      rfl
    · have hkey : ((if (e.1 == name) = true then (e.1, f e.2) else e).1 == q) = false := by
        split <;> simpa using hq
      rw [@List.find?_cons_of_neg _ (fun x : String × ItemStat => x.1 == q) _ _ (by show ((if (e.1 == name) = true then (e.1, f e.2) else e).1 == q) ≠ true; rw [hkey]; exact Bool.false_ne_true),
        @List.find?_cons_of_neg _ (fun x : String × ItemStat => x.1 == q) _ t (by simp [hq])]
      exact ih

theorem itemRecv_ensure_preserves {l : List (String × ItemStat)} {q : String} {v : Option Int}
    (h : itemRecv l q = some v) (name : String) :
    itemRecv (ensureItem l name) q = some v := by
  unfold ensureItem
  split
  · exact h
  · unfold itemRecv at h ⊢
    cases hf : l.find? (fun e => e.1 == q) with
    | none => rw [hf] at h; exact absurd h (by simp)
    | some e =>
      rw [hf] at h
      rw [List.find?_append, hf]
      simpa using h

theorem itemRecv_ensure_self (l : List (String × ItemStat)) (name : String) :
    ∃ e, (ensureItem l name).find? (fun x => x.1 == name) = some e ∧ e.1 = name := by
  unfold ensureItem
  split
  case isTrue hany =>
    rcases List.any_eq_true.mp hany with ⟨x, hx, hxq⟩
    have : ((l.find? (fun x => x.1 == name)).isSome) = true :=
      List.find?_isSome.mpr ⟨x, hx, hxq⟩
    cases hf : l.find? (fun x => x.1 == name) with
    | none => rw [hf] at this; exact absurd this (by simp)
    | some e =>
      refine ⟨e, rfl, ?_⟩
      have := List.find?_some hf
      simpa using this
  case isFalse hany =>
    rw [List.find?_append]
    cases hf : l.find? (fun x => x.1 == name) with
    | none =>
      refine ⟨(name, freshStat name), ?_, rfl⟩
      simp [List.find?_cons_of_pos]
    | some e =>
      have : ∃ x ∈ l, (x.1 == name) = true := List.find?_isSome.mp (by rw [hf]; rfl)
      rcases this with ⟨x, hx, hxq⟩
      exact absurd (List.any_eq_true.mpr ⟨x, hx, hxq⟩) hany



theorem itemRecv_updateItem_none {l : List (String × ItemStat)} {q : String}
    (h : itemRecv l q = some none) (name : String) (f : ItemStat → ItemStat)
    (hf : ∀ s : ItemStat, s.totalReceived = none → (f s).totalReceived = none) :
    itemRecv (updateItem l name f) q = some none := by
  unfold itemRecv at h ⊢
  rw [find?_updateItem]
  cases hfind : l.find? (fun e => e.1 == q) with
  | none => rw [hfind] at h; exact absurd h (by simp)
  | some e =>
    rw [hfind] at h
    have he : e.2.totalReceived = none := by simpa using h
    simp only [Option.map_some']
    split
    · simpa using hf e.2 he
    · simpa using he

theorem statsStep_preserves_itemRecv_none {st : StatsState} {q : String}
    (t : LinkedRecord) (h : itemRecv st.items q = some none) :
    itemRecv (statsStep st t).items q = some none := by
  have h1 : itemRecv (ensureItem st.items t.purchase.market_name) q = some none :=
    itemRecv_ensure_preserves h t.purchase.market_name
  unfold statsStep
  dsimp only
  split
  · dsimp only
    apply itemRecv_updateItem_none h1
    intro s hs
    exact hs
  · split
    · dsimp only
      apply itemRecv_updateItem_none h1
      intro s hs
      dsimp only
      rw [hs]
      exact jsAdd_none_left _
    · exact h1

theorem statsStep_sale_itemRecv_none {st : StatsState} {t : LinkedRecord}
    (hrole : t.role = "sale") (hrecv : t.purchase.raw.received_amount = none) :
    itemRecv (statsStep st t).items t.purchase.market_name = some none := by
  unfold statsStep
  dsimp only
  have hb1 : (t.role == "purchase") = false := by rw [hrole]; rfl
  have hb2 : (t.role == "sale") = true := by rw [hrole]; rfl
  rw [hb1, hb2]
  rw [if_neg Bool.false_ne_true, if_pos rfl]
  dsimp only
  rcases itemRecv_ensure_self st.items t.purchase.market_name with ⟨e, hfind, _⟩
  unfold itemRecv
  rw [find?_updateItem, hfind]
  have hkey : (e.1 == t.purchase.market_name) = true := by
    have := List.find?_some hfind
    simpa using this
  simp only [Option.map_some', hkey, if_true]
  simp [hrecv, jsAdd_none_right]

theorem foldl_itemRecv_none (l : List LinkedRecord) :
    ∀ (st : StatsState) (q : String), itemRecv st.items q = some none →
      itemRecv ((l.foldl statsStep st)).items q = some none := by
  induction l with
  | nil => intro st q h; exact h
  | cons t ts ih =>
    intro st q h
    exact ih _ _ (statsStep_preserves_itemRecv_none t h)

theorem statsFold_received_none {txs : List LinkedRecord} {t : LinkedRecord}
    (ht : t ∈ txs) (hrole : t.role = "sale")
    (hrecv : t.purchase.raw.received_amount = none) :
    (statsFold txs).totalReceived = none ∧
      itemRecv (statsFold txs).items t.purchase.market_name = some none := by
  rcases List.append_of_mem ht with ⟨l1, l2, rfl⟩
  unfold statsFold
  rw [List.foldl_append]
  rw [List.foldl_cons]
  constructor
  · exact foldl_totalReceived_none l2 _ (statsStep_sale_none hrole hrecv)
  · exact foldl_itemRecv_none l2 _ _ (statsStep_sale_itemRecv_none hrole hrecv)



theorem abs_jsToFixed2_sub_le (q : ℚ) : |jsToFixed2 q - q| ≤ 1 / 200 := by
  unfold jsToFixed2
  have h1 : (⌊q * 100 + 1 / 2⌋ : ℚ) ≤ q * 100 + 1 / 2 := Int.floor_le _
  have h2 : q * 100 + 1 / 2 - 1 < (⌊q * 100 + 1 / 2⌋ : ℚ) := Int.sub_one_lt_floor _
  rw [abs_le]
  constructor <;> linarith

theorem resolveItemInfo_none (appid contextid : Option Nat) (assetid : Option String) :
    resolveItemInfo none appid contextid assetid = none := by
  unfold resolveItemInfo
  split <;> rfl

theorem parseOne_market_name_no_catalog (mySteamId : String)
    (kv : String × RawTransaction) :
    (parseOne mySteamId none kv).market_name =
      jsStrOr kv.2.market_name ("Unknown Item") := by
  unfold parseOne
  dsimp only
  rw [resolveItemInfo_none]
  rfl



theorem parseEntriesResult_transactions (mySteamId : String) (assets : Option Catalog)
    (entries : List (String × RawTransaction)) :
    (parseEntriesResult mySteamId assets entries).transactions =
      buildTransactions (purchasesOf mySteamId assets entries)
        (salesOf mySteamId assets entries) := rfl

theorem purchaseLegOf_purchase (S : List Parsed) (p : Parsed) :
    (purchaseLegOf S p).purchase = p := by
  unfold purchaseLegOf
  cases h : getSaleByAssetId S (jsStringOfId p.new_id) <;> rfl

theorem purchaseLegOf_status (S : List Parsed) (p : Parsed) :
    (purchaseLegOf S p).transaction_status =
      if matchesSale S p then "completed" else "uncompleted" := by
  unfold purchaseLegOf matchesSale
  cases h : getSaleByAssetId S (jsStringOfId p.new_id) <;> rfl

/-- Claim C1 (amended): the parser processes purchases in stable input order
(the purchase-role records, in order, are exactly the parsed purchases), and a
purchase is emitted `completed` precisely when its post-disposal id resolves a
sale — including every subsequent duplicate, each of which emits another
completed pair referencing the same sale instead of falling to `uncompleted`
(the sales index is never depleted); the number of completed sale legs
referencing a sale id equals the number of purchases resolving to it, and a
consumed sale never appears as a `received` record. -/
theorem claim_C1 (mySteamId : String) (assets : Option Catalog)
    (entries : List (String × RawTransaction)) :
    (((parseEntriesResult mySteamId assets entries).transactions.filter
        (fun t => t.role == "purchase")).map LinkedRecord.purchase =
      purchasesOf mySteamId assets entries) ∧
    (((parseEntriesResult mySteamId assets entries).transactions.filter
        (fun t => t.role == "purchase")).map LinkedRecord.transaction_status =
      (purchasesOf mySteamId assets entries).map
        (fun p => if matchesSale (salesOf mySteamId assets entries) p
          then "completed" else "uncompleted")) ∧
    (∀ sid : String,
      (parseEntriesResult mySteamId assets entries).transactions.countP
          (fun t => isCompletedSaleRec t && t.purchase_id == sid) =
        (purchasesOf mySteamId assets entries).countP (fun p =>
          ((getSaleByAssetId (salesOf mySteamId assets entries)
            (jsStringOfId p.new_id)).map Parsed.id) == some sid)) ∧
    (∀ s : Parsed,
      (matchedSaleIds (purchasesOf mySteamId assets entries)
          (salesOf mySteamId assets entries)).contains s.id = true →
        (parseEntriesResult mySteamId assets entries).transactions.countP
          (fun t => isReceivedRec t && t.purchase_id == s.id) = 0) := by
  rw [parseEntriesResult_transactions]
  refine ⟨?_, ?_, ?_, ?_⟩
  · rw [filter_purchase_buildTransactions, List.map_map]
    have : (LinkedRecord.purchase ∘ purchaseLegOf (salesOf mySteamId assets entries)) =
        fun p : Parsed => p := by
      funext p
      exact purchaseLegOf_purchase _ p
    rw [this]
    exact List.map_id _
  · rw [filter_purchase_buildTransactions, List.map_map]
    apply List.map_congr_left
    intro p _
    exact purchaseLegOf_status _ p
  · intro sid
    exact saleLeg_count _ _ sid
  · intro s hcons
    exact consumed_not_received _ _ s hcons

/-- Claim C1, as stated, is false: in the duplicate ledger (purchases `p1`,
`p2` both with post-disposal id `X2`, one sale `s1` of asset id `X2`) no
record is `uncompleted` and the sale leg of `s1` appears twice — the second
purchase also claims the sale instead of falling through to `uncompleted`. -/
theorem claim_C1_counterexample :
    ((parseMarketHistory (some ledgerDup) me).toOption.map (fun r =>
      (r.transactions.countP isUncompletedRec,
       r.transactions.countP (fun t => isCompletedSaleRec t && t.purchase_id == "s1")))) =
      some (0, 2) := by rfl

/-- Witness: on the duplicate ledger, the consumed sale is never received and
the completed sale legs referencing it number the matching purchases. -/
theorem claim_C1_witness :
    (parseEntriesResult me none dupEntries).transactions.countP
        (fun t => isReceivedRec t && t.purchase_id == parsedS1.id) = 0 ∧
      (parseEntriesResult me none dupEntries).transactions.countP
          (fun t => isCompletedSaleRec t && t.purchase_id == parsedS1.id) =
        (purchasesOf me none dupEntries).countP (fun p =>
          ((getSaleByAssetId (salesOf me none dupEntries)
            (jsStringOfId p.new_id)).map Parsed.id) == some parsedS1.id) :=
  ⟨(claim_C1 me none dupEntries).2.2.2 parsedS1 (by decide),
   (claim_C1 me none dupEntries).2.2.1 parsedS1.id⟩



/-- Claim C2 (amended): the equation
`completed + uncompleted = purchases_count` holds for every ledger, with no
hypothesis — in particular also on the duplicate-match ledgers. The other
two conservation equations hold for every ledger in which distinct parsed
sales have distinct record ids and no two purchases consume sales sharing
one id (`matchedSaleIds` nodup) — in particular whenever purchases resolve
to pairwise distinct post-disposal ids. -/
theorem claim_C2 (mySteamId : String) (assets : Option Catalog)
    (entries : List (String × RawTransaction)) :
    ((parseEntriesResult mySteamId assets entries).completed_purchases_count +
        (parseEntriesResult mySteamId assets entries).uncompleted_purchases_count =
      (parseEntriesResult mySteamId assets entries).purchases_count) ∧
    (((salesOf mySteamId assets entries).map Parsed.id).Nodup →
      (matchedSaleIds (purchasesOf mySteamId assets entries)
        (salesOf mySteamId assets entries)).Nodup →
      (parseEntriesResult mySteamId assets entries).transactions.length =
          (parseEntriesResult mySteamId assets entries).purchases_count +
            (parseEntriesResult mySteamId assets entries).sales_count ∧
        (parseEntriesResult mySteamId assets entries).completed_purchases_count +
            (parseEntriesResult mySteamId assets entries).received_sales_count =
          (parseEntriesResult mySteamId assets entries).sales_count) := by
  refine ⟨conservation_eq2 _ _, fun hS hK => ⟨?_, ?_⟩⟩
  · exact conservation_eq1 _ _ hS hK
  · exact conservation_eq3 _ _ hS hK

/-- Claim C2, as stated, is false: on the duplicate ledger the parser returns
4 transactions against `purchases_count + sales_count = 3`, and
`completed + received = 2` against `sales_count = 1`. -/
theorem claim_C2_counterexample :
    ∃ r, parseMarketHistory (some ledgerDup) me = Except.ok r ∧
      ¬(r.transactions.length = r.purchases_count + r.sales_count) ∧
      ¬(r.completed_purchases_count + r.received_sales_count = r.sales_count) := by
  refine ⟨parseEntriesResult me none dupEntries, rfl, by decide, by decide⟩

/-- Witness: the unconditional equation at the duplicate ledger (where the
Nodup side condition fails) and all three equations at scenario A. -/
theorem claim_C2_witness :
    ((parseEntriesResult me none dupEntries).completed_purchases_count +
        (parseEntriesResult me none dupEntries).uncompleted_purchases_count =
      (parseEntriesResult me none dupEntries).purchases_count) ∧
    ((parseEntriesResult me none scenarioAEntries).completed_purchases_count +
        (parseEntriesResult me none scenarioAEntries).uncompleted_purchases_count =
      (parseEntriesResult me none scenarioAEntries).purchases_count) ∧
    ((parseEntriesResult me none scenarioAEntries).transactions.length =
        (parseEntriesResult me none scenarioAEntries).purchases_count +
          (parseEntriesResult me none scenarioAEntries).sales_count ∧
      (parseEntriesResult me none scenarioAEntries).completed_purchases_count +
          (parseEntriesResult me none scenarioAEntries).received_sales_count =
        (parseEntriesResult me none scenarioAEntries).sales_count) :=
  ⟨(claim_C2 me none dupEntries).1,
   (claim_C2 me none scenarioAEntries).1,
   (claim_C2 me none scenarioAEntries).2 (by decide) (by decide)⟩

/-- Claim C3: a sale consumed as the completed counterpart of a purchase
never appears as a `received` record, and (when sale record ids are
pairwise distinct, as ledger keys are) every unconsumed sale appears as
exactly one `received` record. -/
theorem claim_C3 (mySteamId : String) (assets : Option Catalog)
    (entries : List (String × RawTransaction))
    (hS : ((salesOf mySteamId assets entries).map Parsed.id).Nodup) :
    ∀ s ∈ salesOf mySteamId assets entries,
      ((matchedSaleIds (purchasesOf mySteamId assets entries)
          (salesOf mySteamId assets entries)).contains s.id = true →
        (parseEntriesResult mySteamId assets entries).transactions.countP
          (fun t => isReceivedRec t && t.purchase_id == s.id) = 0) ∧
      ((matchedSaleIds (purchasesOf mySteamId assets entries)
          (salesOf mySteamId assets entries)).contains s.id = false →
        (parseEntriesResult mySteamId assets entries).transactions.countP
          (fun t => isReceivedRec t && t.purchase_id == s.id) = 1) := by
  intro s hs
  rw [parseEntriesResult_transactions]
  constructor
  · intro hcons
    exact consumed_not_received _ _ s hcons
  · intro hunc
    exact unconsumed_received_once _ _ s hS hs hunc

/-- Witness: scenario A's consumed sale yields no received record. -/
theorem claim_C3_witness :
    (parseEntriesResult me none scenarioAEntries).transactions.countP
      (fun t => isReceivedRec t && t.purchase_id == parsedS1.id) = 0 :=
  ((claim_C3 me none scenarioAEntries (by decide)) parsedS1 (by decide)).1 (by decide)

/-- Claim C9: a purchase linked to a sale yields two separate entries — a
`purchase`-role and a `sale`-role record, both `completed`, cross-referencing
each other via `linked_sale_id` / `linked_purchase_id` — not one record with
both sides. -/
theorem claim_C9 (mySteamId : String) (assets : Option Catalog)
    (entries : List (String × RawTransaction)) (p s : Parsed)
    (hp : p ∈ purchasesOf mySteamId assets entries)
    (hs : getSaleByAssetId (salesOf mySteamId assets entries)
      (jsStringOfId p.new_id) = some s) :
    mkCompletedPurchase p s ∈ (parseEntriesResult mySteamId assets entries).transactions ∧
    mkCompletedSale s p ∈ (parseEntriesResult mySteamId assets entries).transactions ∧
    (mkCompletedPurchase p s).role = "purchase" ∧
    (mkCompletedSale s p).role = "sale" ∧
    (mkCompletedPurchase p s).transaction_status = "completed" ∧
    (mkCompletedSale s p).transaction_status = "completed" ∧
    (mkCompletedPurchase p s).linked_sale_id = some s.id ∧
    (mkCompletedSale s p).linked_purchase_id = some p.id ∧
    (mkCompletedPurchase p s).purchase = p ∧
    (mkCompletedSale s p).purchase = s ∧
    mkCompletedPurchase p s ≠ mkCompletedSale s p := by
  rw [parseEntriesResult_transactions]
  have hmem := mem_buildTransactions_of_match hp hs
  refine ⟨hmem.1, hmem.2, rfl, rfl, rfl, rfl, rfl, rfl, rfl, rfl, ?_⟩
  intro h
  have h2 : ("purchase" : String) = "sale" := congrArg LinkedRecord.role h
  exact absurd h2 (by decide)

/-- Witness: both completed legs of scenario A's pair are in the output. -/
theorem claim_C9_witness :
    mkCompletedPurchase parsedP1 parsedS1 ∈
        (parseEntriesResult me none scenarioAEntries).transactions ∧
      mkCompletedSale parsedS1 parsedP1 ∈
        (parseEntriesResult me none scenarioAEntries).transactions :=
  ⟨(claim_C9 me none scenarioAEntries parsedP1 parsedS1 (by decide) (by decide)).1,
   (claim_C9 me none scenarioAEntries parsedP1 parsedS1 (by decide) (by decide)).2.1⟩



/-- Claim C4: every ROI record arises from a `completed` purchase record
(uncompleted and received records yield none), with buy price the purchase's
paid total, sell price a sale's received amount (0 if absent) and profit
sell − buy; scenario A (paid 10, received 15) yields buy 10, sell 15,
profit 5, ROI percent 50. -/
theorem claim_C4 :
    (∀ (txs : List LinkedRecord) (rec : ROIRecord), rec ∈ calcROIList txs →
      ∃ t ∈ txs, t.role = "purchase" ∧ t.transaction_status = "completed" ∧
        rec.buy_price = t.purchase.paid_total ∧
        rec.profit = rec.sell_price - rec.buy_price ∧
        ∃ st ∈ txs, st.role = "sale" ∧
          rec.sell_price = jsOrInt0 st.purchase.raw.received_amount) ∧
    ((calcROIList (parseEntriesResult me none scenarioAEntries).transactions).map
        (fun r => (r.buy_price, r.sell_price, r.profit, r.roi_percent)) =
      [(10, 15, 5, 50)]) := by
  constructor
  · exact fun txs rec h => calcROIList_spec h
  · have h1 : calcROIList (parseEntriesResult me none scenarioAEntries).transactions =
        [roiRecA] := by rfl
    rw [h1]
    have hbuy : (mkCompletedPurchase parsedP1 parsedS1).purchase.paid_total = (10 : Int) := by
      decide
    have hrecv : (mkCompletedSale parsedS1 parsedP1).purchase.raw.received_amount =
        some (15 : Int) := by decide
    have h2 : roiRecA.roi_percent = 50 := by
      norm_num [roiRecA, mkROIRecord, jsToFixed2, jsOrInt0, hbuy, hrecv]
    have h3 : roiRecA.buy_price = 10 := by decide
    have h4 : roiRecA.sell_price = 15 := by decide
    have h5 : roiRecA.profit = 5 := by decide
    simp [h2, h3, h4, h5]

/-- Witness: the membership part of C4 at scenario A's ROI record. -/
theorem claim_C4_witness :
    roiRecA ∈ calcROIList (parseEntriesResult me none scenarioAEntries).transactions ∧
    ∃ t ∈ (parseEntriesResult me none scenarioAEntries).transactions,
      t.role = "purchase" ∧ t.transaction_status = "completed" ∧
      roiRecA.buy_price = t.purchase.paid_total ∧
      roiRecA.profit = roiRecA.sell_price - roiRecA.buy_price ∧
      ∃ st ∈ (parseEntriesResult me none scenarioAEntries).transactions,
        st.role = "sale" ∧
        roiRecA.sell_price = jsOrInt0 st.purchase.raw.received_amount :=
  have hmem : roiRecA ∈ calcROIList (parseEntriesResult me none scenarioAEntries).transactions := by
    have h1 : calcROIList (parseEntriesResult me none scenarioAEntries).transactions =
        [roiRecA] := by rfl
    rw [h1]
    exact List.mem_singleton.mpr rfl
  ⟨hmem, claim_C4.1 (parseEntriesResult me none scenarioAEntries).transactions roiRecA hmem⟩

/-- Claim C5: a completed pair with buy price 0 gets ROI percent exactly 0
(the division is guarded), and the statistics aggregator returns overall ROI
percent 0 whenever total invested is 0. -/
theorem claim_C5 :
    (∀ (txs : List LinkedRecord) (rec : ROIRecord), rec ∈ calcROIList txs →
      rec.buy_price = 0 → rec.roi_percent = 0) ∧
    (∀ data : ParseResult, (calculateTransactionStatistics data).totalInvested = 0 →
      (calculateTransactionStatistics data).roiPercent = some 0) := by
  constructor
  · exact fun txs rec h hb => calcROIList_buyzero h hb
  · intro data h
    unfold calculateTransactionStatistics at h ⊢
    dsimp only at h ⊢
    rw [if_neg]
    rw [h]
    exact lt_irrefl 0

/-- Witness: the zero-buy-price pair and the empty-ledger statistics. -/
theorem claim_C5_witness :
    (roiRecZ ∈ calcROIList (parseEntriesResult me none zeroEntries).transactions ∧
      roiRecZ.buy_price = 0 ∧ roiRecZ.roi_percent = 0) ∧
    ((calculateTransactionStatistics resultEmpty).totalInvested = 0 ∧
      (calculateTransactionStatistics resultEmpty).roiPercent = some 0) := by
  have hmem : roiRecZ ∈ calcROIList (parseEntriesResult me none zeroEntries).transactions := by
    have h1 : calcROIList (parseEntriesResult me none zeroEntries).transactions =
        [roiRecZ] := by rfl
    rw [h1]
    exact List.mem_singleton.mpr rfl
  refine ⟨⟨hmem, by decide, ?_⟩, by decide, ?_⟩
  · exact claim_C5.1 (parseEntriesResult me none zeroEntries).transactions roiRecZ
      hmem (by decide)
  · exact claim_C5.2 resultEmpty (by decide)

/-- Claim C7: the parser raises an error whenever the history object or its
purchases collection is absent, always returns normally when purchases are
present (catalog optional), and an absent catalog only degrades display
names to the raw entry's market name or the placeholder. -/
theorem claim_C7 :
    (∀ steamId : String,
      parseMarketHistory none steamId = Except.error ("Invalid history object")) ∧
    (∀ (steamId : String) (h : Ledger), h.purchases = none →
      ∃ msg, parseMarketHistory (some h) steamId = Except.error msg) ∧
    (∀ (steamId : String) (h : Ledger) (entries : List (String × RawTransaction)),
      h.purchases = some entries →
        parseMarketHistory (some h) steamId =
          Except.ok (parseEntriesResult steamId h.assets entries)) ∧
    (∀ (steamId : String) (kv : String × RawTransaction),
      (parseOne steamId none kv).market_name =
        jsStrOr kv.2.market_name ("Unknown Item")) ∧
    (∀ (steamId : String) (kv : String × RawTransaction), kv.2.market_name = none →
      (parseOne steamId none kv).market_name = "Unknown Item") := by
  refine ⟨fun _ => rfl, ?_, ?_, ?_, ?_⟩
  · intro steamId h hp
    refine ⟨"TypeError: cannot convert undefined purchases to object", ?_⟩
    unfold parseMarketHistory
    dsimp only
    rw [hp]
  · intro steamId h entries hp
    unfold parseMarketHistory
    dsimp only
    rw [hp]
  · intro steamId kv
    exact parseOne_market_name_no_catalog steamId kv
  · intro steamId kv hm
    rw [parseOne_market_name_no_catalog steamId kv, hm]
    rfl

/-- Witness: concrete error and success cases of C7. -/
theorem claim_C7_witness :
    (∃ msg, parseMarketHistory (some { purchases := none, assets := none }) me =
      Except.error msg) ∧
    parseMarketHistory (some ledgerA) me = Except.ok resultA ∧
    (parseOne me none (("k", { steamid_purchaser := some me }) :
        String × RawTransaction)).market_name = "Unknown Item" :=
  ⟨claim_C7.2.1 me { purchases := none, assets := none } rfl,
   claim_C7.2.2.1 me ledgerA scenarioAEntries rfl,
   claim_C7.2.2.2.2 me (("k", { steamid_purchaser := some me }) :
     String × RawTransaction) rfl⟩

/-- Claim C8: the ROI calculator errors exactly on a non-array input and
returns normally on every array, including the empty one. -/
theorem claim_C8 :
    (∀ input : Option (List LinkedRecord),
      (∃ msg, calculateROI input = Except.error msg) ↔ input = none) ∧
    (∀ txs : List LinkedRecord, calculateROI (some txs) = Except.ok (calcROIList txs)) := by
  constructor
  · intro input
    cases input with
    | none =>
      exact ⟨fun _ => rfl, fun _ => ⟨"transactions must be an array", rfl⟩⟩
    | some txs =>
      constructor
      · intro ⟨msg, hmsg⟩
        exact Except.noConfusion hmsg
      · intro h
        exact Option.noConfusion h
  · intro txs
    rfl

/-- Witness: C8 at the empty array and the non-array input. -/
theorem claim_C8_witness :
    calculateROI (some []) = Except.ok [] ∧
      (∃ msg, calculateROI none = Except.error msg) :=
  ⟨claim_C8.2 [], (claim_C8.1 none).mpr rfl⟩

/-- Claim C10: the aggregator reads a sale's received amount with no default,
so one sale with a missing received amount poisons the overall and per-item
received totals (and hence total profit) to NaN, while the ROI calculator
defaults the same missing amount to 0. -/
theorem claim_C10 :
    (∀ (txs : List LinkedRecord) (t : LinkedRecord), t ∈ txs → t.role = "sale" →
      t.purchase.raw.received_amount = none →
      (statsFold txs).totalReceived = none ∧
        itemRecv (statsFold txs).items t.purchase.market_name = some none) ∧
    (∀ data : ParseResult, (statsFold data.transactions).totalReceived = none →
      (calculateTransactionStatistics data).totalReceived = none ∧
        (calculateTransactionStatistics data).totalProfit = none) ∧
    ((calcROIList (parseEntriesResult me none noRecvEntries).transactions).map
        (fun r => r.sell_price) = [0] ∧
      (statsFold (parseEntriesResult me none noRecvEntries).transactions).totalReceived =
        none) := by
  refine ⟨?_, ?_, by decide, by decide⟩
  · intro txs t ht hrole hrecv
    exact statsFold_received_none ht hrole hrecv
  · intro data h
    unfold calculateTransactionStatistics
    dsimp only
    rw [h]
    exact ⟨rfl, rfl⟩

/-- Witness: the NaN propagation at the missing-received-amount ledger. -/
theorem claim_C10_witness :
    (statsFold (parseEntriesResult me none noRecvEntries).transactions).totalReceived =
        none ∧
      itemRecv (statsFold (parseEntriesResult me none noRecvEntries).transactions).items
        (mkCompletedSale parsedS1n parsedP1).purchase.market_name = some none :=
  claim_C10.1 (parseEntriesResult me none noRecvEntries).transactions
    (mkCompletedSale parsedS1n parsedP1) (by decide) rfl rfl



theorem matched_count_eq (transactions : List LinkedRecord) (inventory : List InventoryItem) :
    (matchInventoryWithPurchases transactions inventory).matched_count =
      ((eligiblePurchases transactions).filter (invHit inventory)).length := by
  unfold matchInventoryWithPurchases
  dsimp only
  exact List.length_map _ _

theorem unmatched_count_eq (transactions : List LinkedRecord) (inventory : List InventoryItem) :
    (matchInventoryWithPurchases transactions inventory).unmatched_count =
      ((eligiblePurchases transactions).filter (fun t => !(invHit inventory t))).length := by
  unfold matchInventoryWithPurchases
  dsimp only
  exact List.length_map _ _

theorem total_purchases_eq (transactions : List LinkedRecord) (inventory : List InventoryItem) :
    (matchInventoryWithPurchases transactions inventory).total_purchases =
      (eligiblePurchases transactions).length := rfl

theorem filter_length_split {α : Type} (l : List α) (g : α → Bool) :
    (l.filter g).length + (l.filter (fun x => !(g x))).length = l.length := by
  have h := countP_add_countP_not l g
  rwa [List.countP_eq_length_filter, List.countP_eq_length_filter] at h

theorem jsToFixed2_pair_bound (m u tot : ℚ) (htot : tot ≠ 0) (hsum : m + u = tot) :
    |jsToFixed2 (m / tot * 100) + jsToFixed2 (u / tot * 100) - 100| ≤ 1 / 100 := by
  have habsum : m / tot * 100 + u / tot * 100 = 100 := by
    field_simp
    linarith
  have ha := abs_jsToFixed2_sub_le (m / tot * 100)
  have hb := abs_jsToFixed2_sub_le (u / tot * 100)
  have hsplit : jsToFixed2 (m / tot * 100) + jsToFixed2 (u / tot * 100) - 100 =
      (jsToFixed2 (m / tot * 100) - m / tot * 100) +
        (jsToFixed2 (u / tot * 100) - u / tot * 100) := by
    linarith [habsum]
  calc |jsToFixed2 (m / tot * 100) + jsToFixed2 (u / tot * 100) - 100|
      = |(jsToFixed2 (m / tot * 100) - m / tot * 100) +
          (jsToFixed2 (u / tot * 100) - u / tot * 100)| := by rw [hsplit]
    _ ≤ |jsToFixed2 (m / tot * 100) - m / tot * 100| +
          |jsToFixed2 (u / tot * 100) - u / tot * 100| := abs_add _ _
    _ ≤ 1 / 200 + 1 / 200 := add_le_add ha hb
    _ ≤ 1 / 100 := by norm_num

/-- Claim C6: the holdings matcher renders both percentage strings as "0%"
when there are no eligible purchases; otherwise matched + unmatched counts
equal the eligible total and the two two-decimal percentages sum to 100
within rounding (at most 0.01 apart). -/
theorem claim_C6 (transactions : List LinkedRecord) (inventory : List InventoryItem) :
    ((matchInventoryWithPurchases transactions inventory).total_purchases = 0 →
      (matchInventoryWithPurchases transactions inventory).statistics.matched_percentage =
          "0%" ∧
        (matchInventoryWithPurchases transactions inventory).statistics.unmatched_percentage =
          "0%") ∧
    (0 < (matchInventoryWithPurchases transactions inventory).total_purchases →
      (matchInventoryWithPurchases transactions inventory).matched_count +
          (matchInventoryWithPurchases transactions inventory).unmatched_count =
        (matchInventoryWithPurchases transactions inventory).total_purchases ∧
      |jsToFixed2
          ((((matchInventoryWithPurchases transactions inventory).matched_count : ℚ) /
            ((matchInventoryWithPurchases transactions inventory).total_purchases : ℚ)) * 100) +
        jsToFixed2
          ((((matchInventoryWithPurchases transactions inventory).unmatched_count : ℚ) /
            ((matchInventoryWithPurchases transactions inventory).total_purchases : ℚ)) * 100) -
        100| ≤ 1 / 100) := by
  constructor
  · intro h0
    rw [total_purchases_eq] at h0
    unfold matchInventoryWithPurchases
    dsimp only
    rw [h0]
    exact ⟨rfl, rfl⟩
  · intro hpos
    have hcnt : (matchInventoryWithPurchases transactions inventory).matched_count +
        (matchInventoryWithPurchases transactions inventory).unmatched_count =
        (matchInventoryWithPurchases transactions inventory).total_purchases := by
      rw [matched_count_eq, unmatched_count_eq, total_purchases_eq]
      exact filter_length_split _ _
    refine ⟨hcnt, ?_⟩
    apply jsToFixed2_pair_bound
    · have hne : (matchInventoryWithPurchases transactions inventory).total_purchases ≠ 0 :=
        Nat.pos_iff_ne_zero.mp hpos
      exact_mod_cast hne
    · exact_mod_cast hcnt

/-- Witness: the positive branch of C6 at scenario A with empty holdings. -/
theorem claim_C6_witness :
    (matchInventoryWithPurchases resultA.transactions []).matched_count +
        (matchInventoryWithPurchases resultA.transactions []).unmatched_count =
      (matchInventoryWithPurchases resultA.transactions []).total_purchases ∧
    |jsToFixed2
        ((((matchInventoryWithPurchases resultA.transactions []).matched_count : ℚ) /
          ((matchInventoryWithPurchases resultA.transactions []).total_purchases : ℚ)) * 100) +
      jsToFixed2
        ((((matchInventoryWithPurchases resultA.transactions []).unmatched_count : ℚ) /
          ((matchInventoryWithPurchases resultA.transactions []).total_purchases : ℚ)) * 100) -
      100| ≤ 1 / 100 :=
  (claim_C6 resultA.transactions []).2 (by decide)

end EASteam
